import Mathlib

/-!
Shallow embedding of GlyphScope (src/index.js, the full draft: whitespace
sub-classification + ASCII fast path + property-escape based detection +
Hangul compatibility + CJK fallback), together with proofs of the spec
claims.

Modelling conventions:
* A JS string is modelled by its sequence of Unicode code points
  (`List Nat`); a single character is a code point (`Nat`).
* Each `RegExp | null` produced by the `_SUPPORTS_PROP_ESCAPES ? ... : null`
  initialisers is modelled as an `Option (Nat → Bool)`: `none` is `null`,
  `some p` is a compiled regex whose `.test` on a one-code-point string is
  the predicate `p`.  These predicates, the support flag and the compiled
  script detector list form the `Env` record, because they are environment
  capabilities probed at module load, not part of the algorithm.
* JS numbers are modelled as exact rationals; `+x.toFixed(2)` is modelled
  as rounding to the nearest multiple of 1/100 (ties upward).
* Thrown `TypeError`/`RangeError` are modelled with `Except JSError`.
-/

namespace GlyphScope

/-- A classification label `{main, sub?}`. -/
structure Label where
  main : String
  sub : Option String := none
deriving DecidableEq, Repr

/-- Constants of the `WS_SUB` object from the source. -/
def WS_SUB_SPACE_SEP : String := "Space Separator"

def WS_SUB_FIXED_WIDTH : String := "Fixed-Width Space"

def WS_SUB_TAB : String := "Control:Tab"

def WS_SUB_LINE_BREAK : String := "Control:Line Break"

def WS_SUB_ZERO_WIDTH : String := "Invisible:Zero Width"

/-- Constant `_WS_TAB`: U+0009. -/
def _WS_TAB : Nat := 0x0009

/-- Constant `_WS_LINE_BREAK_RANGES`: 000A..000D, 2028..2029. -/
def _WS_LINE_BREAK_RANGES : List (Nat × Nat) := [(0x000A, 0x000D), (0x2028, 0x2029)]

/-- Constant `_WS_LINE_BREAK_SINGLES`: 0085. -/
def _WS_LINE_BREAK_SINGLES : List Nat := [0x0085]

/-- Constant `_WS_SPACE_SEPARATOR_SINGLES`: 0020, 00A0, 1680, 3000. -/
def _WS_SPACE_SEPARATOR_SINGLES : List Nat := [0x0020, 0x00A0, 0x1680, 0x3000]

/-- Constant `_WS_FIXED_WIDTH_RANGES`: 2000..200A. -/
def _WS_FIXED_WIDTH_RANGES : List (Nat × Nat) := [(0x2000, 0x200A)]

/-- Constant `_WS_FIXED_WIDTH_SINGLES`: 202F, 205F. -/
def _WS_FIXED_WIDTH_SINGLES : List Nat := [0x202F, 0x205F]

/-- Constant `_WS_ZERO_WIDTH_SINGLES`: 200B. -/
def _WS_ZERO_WIDTH_SINGLES : List Nat := [0x200B]

/-- Source function `_inRanges(cp, ranges)`. -/
def _inRanges (cp : Nat) (ranges : List (Nat × Nat)) : Bool :=
  ranges.any (fun r => decide (r.1 ≤ cp) && decide (cp ≤ r.2))

/-- Source function `_inSingles(cp, singles)`. -/
def _inSingles (cp : Nat) (singles : List Nat) : Bool :=
  singles.any (fun v => cp == v)

/-- Source function `_classifyWhitespace(cp)`: the five whitespace tests, in source order. -/
def _classifyWhitespace (cp : Nat) : Option Label :=
  if _inSingles cp _WS_ZERO_WIDTH_SINGLES then
    some ⟨"Whitespace", some WS_SUB_ZERO_WIDTH⟩
  else if cp = _WS_TAB then
    some ⟨"Whitespace", some WS_SUB_TAB⟩
  else if _inRanges cp _WS_LINE_BREAK_RANGES || _inSingles cp _WS_LINE_BREAK_SINGLES then
    some ⟨"Whitespace", some WS_SUB_LINE_BREAK⟩
  else if _inSingles cp _WS_SPACE_SEPARATOR_SINGLES then
    some ⟨"Whitespace", some WS_SUB_SPACE_SEP⟩
  else if _inRanges cp _WS_FIXED_WIDTH_RANGES || _inSingles cp _WS_FIXED_WIDTH_SINGLES then
    some ⟨"Whitespace", some WS_SUB_FIXED_WIDTH⟩
  else
    none

/-- The runtime environment: the property-escape support flag and every
`RegExp | null` the module compiles at load time (`none` models `null`).
`scripts` is `_SCRIPT_DETECTORS`: label/predicate pairs whose regex
compiled successfully, in registration order. -/
structure Env where
  supports : Bool
  reExtPicto : Option (Nat → Bool)
  reEmoji : Option (Nat → Bool)
  reEmojiComponent : Option (Nat → Bool)
  gcLetter : Option (Nat → Bool)
  gcMark : Option (Nat → Bool)
  gcDecimal : Option (Nat → Bool)
  gcNumber : Option (Nat → Bool)
  gcPunct : Option (Nat → Bool)
  gcSymbol : Option (Nat → Bool)
  gcSep : Option (Nat → Bool)
  gcCtrl : Option (Nat → Bool)
  gcFormat : Option (Nat → Bool)
  scripts : List (String × (Nat → Bool))

/-- Evaluation of `_RE && _RE.test(ch)` for a nullable regex on a one-code-point string. -/
def testOpt (re : Option (Nat → Bool)) (cp : Nat) : Bool :=
  match re with
  | some p => p cp
  | none => false

/-- Constant `_VS_BASIC_RANGE`: FE00..FE0F. -/
def _VS_BASIC_RANGE : Nat × Nat := (0xFE00, 0xFE0F)

/-- Constant `_VS_SUPP_RANGE`: E0100..E01EF. -/
def _VS_SUPP_RANGE : Nat × Nat := (0xE0100, 0xE01EF)

/-- Source function `_classifyEmoji(ch, cp)`: variation selectors first (range based, no
property escapes needed), then `Extended_Pictographic`, then
`Emoji`/`Emoji_Component`. -/
def _classifyEmoji (env : Env) (cp : Nat) : Option Label :=
  if (_VS_BASIC_RANGE.1 ≤ cp && cp ≤ _VS_BASIC_RANGE.2) ||
     (_VS_SUPP_RANGE.1 ≤ cp && cp ≤ _VS_SUPP_RANGE.2) then
    some ⟨"Emoji", some "Variation Selector"⟩
  else if testOpt env.reExtPicto cp then
    some ⟨"Emoji", some "Extended Pictographic"⟩
  else if testOpt env.reEmoji cp then
    if testOpt env.reEmojiComponent cp then
      some ⟨"Emoji", some "Emoji Component"⟩
    else
      some ⟨"Emoji", none⟩
  else
    none

/-- Source function `_classifyHangul(cp)`. -/
def _classifyHangul (cp : Nat) : Option Label :=
  if 0xAC00 ≤ cp && cp ≤ 0xD7A3 then some ⟨"Hangul", some "Syllable"⟩
  else if 0x1100 ≤ cp && cp ≤ 0x11FF then some ⟨"Hangul", some "Jamo"⟩
  else if 0xA960 ≤ cp && cp ≤ 0xA97F then some ⟨"Hangul", some "Jamo Ext‑A"⟩
  else if 0xD7B0 ≤ cp && cp ≤ 0xD7FF then some ⟨"Hangul", some "Jamo Ext‑B"⟩
  else if 0x3130 ≤ cp && cp ≤ 0x318F then some ⟨"Hangul", some "Compatibility Jamo"⟩
  else none

/-- Source function `_detectScriptLabel(ch)`: first script detector whose regex matches. -/
def _detectScriptLabel (env : Env) (cp : Nat) : Option String :=
  env.scripts.findSome? (fun d => if d.2 cp then some d.1 else none)

/-- Source function `_classifyAscii(cp)`. -/
def _classifyAscii (cp : Nat) : Label :=
  if cp ≤ 0x1F || cp = 0x7F then ⟨"Control", none⟩
  else if 0x30 ≤ cp && cp ≤ 0x39 then ⟨"Digit", some "ASCII"⟩
  else if 0x41 ≤ cp && cp ≤ 0x5A then ⟨"Latin", some "Uppercase"⟩
  else if 0x61 ≤ cp && cp ≤ 0x7A then ⟨"Latin", some "Lowercase"⟩
  else if (0x21 ≤ cp && cp ≤ 0x2F) || (0x3A ≤ cp && cp ≤ 0x40) ||
          (0x5B ≤ cp && cp ≤ 0x60) || (0x7B ≤ cp && cp ≤ 0x7E) then
    ⟨"Punctuation", some "ASCII"⟩
  else ⟨"Other", some "ASCII"⟩

/-- Step 5 of `_classifyCodePoint` (lines 413-464): the General-Category /
script property cascade, run only when `_SUPPORTS_PROP_ESCAPES`. -/
def _classifyByProperties (env : Env) (cp : Nat) : Option Label :=
  if testOpt env.gcCtrl cp then some ⟨"Control", none⟩
  else if testOpt env.gcFormat cp then
    if cp = 0x200D then some ⟨"Format", some "ZWJ"⟩
    else if cp = 0x200C then some ⟨"Format", some "ZWNJ"⟩
    else if cp = 0xFEFF then some ⟨"Format", some "BOM/ZWNBS"⟩
    else some ⟨"Format", none⟩
  else if testOpt env.gcLetter cp then
    match _detectScriptLabel env cp with
    | some s => some ⟨s, some "Letter"⟩
    | none => some ⟨"Letter", some "Other Script"⟩
  else if testOpt env.gcMark cp then some ⟨"Mark", none⟩
  else if testOpt env.gcDecimal cp then some ⟨"Digit", some "Decimal"⟩
  else if testOpt env.gcNumber cp then some ⟨"Number", none⟩
  else if testOpt env.gcPunct cp then some ⟨"Punctuation", none⟩
  else if testOpt env.gcSymbol cp then some ⟨"Symbol", none⟩
  else if testOpt env.gcSep cp then some ⟨"Separator", none⟩
  else none

/-- Step 6's CJK Unified Ideographs fallback ranges (lines 477-485). -/
def _HAN_FALLBACK_RANGES : List (Nat × Nat) :=
  [(0x4E00, 0x9FFF), (0x3400, 0x4DBF),
   (0x20000, 0x2A6DF), (0x2A700, 0x2B73F),
   (0x2B740, 0x2B81F), (0x2B820, 0x2CEAF),
   (0x2CEB0, 0x2EBEF),
   (0x30000, 0x3134F),
   (0x31350, 0x323AF),
   (0x2EBF0, 0x2EE5F),
   (0x323B0, 0x3347F)]

/-- Source function `_classifyCodePoint(ch, cp)`: the full precedence chain. -/
def _classifyCodePoint (env : Env) (cp : Nat) : Label :=
  match _classifyWhitespace cp with
  | some ws => ws
  | none =>
    if cp ≤ 0x7F then _classifyAscii cp
    else
      match _classifyEmoji env cp with
      | some em => em
      | none =>
        match _classifyHangul cp with
        | some hangul => hangul
        | none =>
          match (if env.supports then _classifyByProperties env cp else none) with
          | some p => p
          | none =>
            if _inRanges cp _HAN_FALLBACK_RANGES then ⟨"Han Ideograph", none⟩
            else ⟨"Other", none⟩

/-- A JavaScript argument value, as far as the API's validation observes it:
either a string (its code point sequence) or some non-string value. -/
inductive JSVal where
  | str (cps : List Nat)
  | nonString
deriving DecidableEq

/-- The two error kinds the library throws. -/
inductive JSError where
  | typeError (msg : String)
  | rangeError (msg : String)
deriving DecidableEq

/-- The memo cache `_memo`: a map from code point to cached label.
JS `Map.set` on a cache miss is modelled by prepending; keys stay unique
because the entry is only added when the lookup missed. -/
abbrev Memo := List (Nat × Label)

/-- The cache lookup and fill at the heart of `getCharacterType`
(lines 509-517), for an already-extracted first code point. -/
def getCharTypeCp (env : Env) (memo : Memo) (cp : Nat) : Label × Memo :=
  match List.lookup cp memo with
  | some cached => (cached, memo)
  | none =>
    let result := _classifyCodePoint env cp
    (result, (cp, result) :: memo)

/-- Source function `getCharacterType(char)`: validates a non-empty string, takes the first
code point, consults the memo cache. -/
def getCharacterType (env : Env) (memo : Memo) (char : JSVal) :
    Except JSError (Label × Memo) :=
  match char with
  | .nonString => .error (.typeError "getCharacterType expects a non-empty string.")
  | .str [] => .error (.typeError "getCharacterType expects a non-empty string.")
  | .str (cp :: _) => .ok (getCharTypeCp env memo cp)

/-- The value found in the `granularity` option slot (when the property is
absent or `undefined`, the destructuring default makes it `main`). -/
inductive GranVal where
  | main
  | sub
  | other (s : String)
deriving DecidableEq

/-- The `options` argument of `analyzeText`: omitted/`undefined`, `null`,
or an object whose `granularity` property is `none` (absent/`undefined`,
so the default applies) or `some` value. -/
inductive JSOptions where
  | undef
  | null
  | obj (granularity : Option GranVal)
deriving DecidableEq

/-- The bucket key: `granularity === 'sub' && sub ? main + ":" + sub : main`. -/
def labelKey (g : GranVal) (l : Label) : String :=
  match g, l.sub with
  | .sub, some s => l.main ++ ":" ++ s
  | _, _ => l.main

/-- A bucket while the analysis loop runs: running count and the distinct
characters in insertion order (a JS `Set`). -/
structure AccBucket where
  count : Nat
  chars : List Nat
deriving DecidableEq

/-- Source statements `bucket.count++; bucket.chars.add(ch)` on the bucket for `key`,
creating the bucket at the end of the record when absent (JS object keys
enumerate in insertion order). -/
def addChar (bd : List (String × AccBucket)) (key : String) (cp : Nat) :
    List (String × AccBucket) :=
  match bd with
  | [] => [(key, ⟨1, [cp]⟩)]
  | (k, b) :: rest =>
    if k = key then
      (k, ⟨b.count + 1, if cp ∈ b.chars then b.chars else b.chars ++ [cp]⟩) :: rest
    else
      (k, b) :: addChar rest key cp

/-- The `for (const ch of text)` loop of `analyzeText` (lines 539-549),
threading the breakdown record, `total` and the shared memo cache. -/
def analyzeLoop (env : Env) (g : GranVal) :
    List Nat → List (String × AccBucket) → Nat → Memo →
    List (String × AccBucket) × Nat × Memo
  | [], bd, total, memo => (bd, total, memo)
  | cp :: rest, bd, total, memo =>
    let r := getCharTypeCp env memo cp
    analyzeLoop env g rest (addChar bd (labelKey g r.1) cp) (total + 1) r.2

/-- Model of `+x.toFixed(2)` on an exact rational: round to the nearest multiple of
1/100 (half up). -/
def round2 (q : ℚ) : ℚ := (⌊q * 100 + 1 / 2⌋ : ℚ) / 100

/-- The UTF-16 code units of a code point (one unit below U+10000, a
surrogate pair above). -/
def utf16Units (cp : Nat) : List Nat :=
  if cp < 0x10000 then [cp]
  else [0xD800 + (cp - 0x10000) / 0x400, 0xDC00 + (cp - 0x10000) % 0x400]

/-- Lexicographic strict order on UTF-16 unit lists: JS default string
comparison. -/
def unitsLt : List Nat → List Nat → Bool
  | _, [] => false
  | [], _ :: _ => true
  | a :: as, b :: bs => if a < b then true else if b < a then false else unitsLt as bs

/-- JS `<` on the one-code-point strings for `a` and `b`. -/
def charLt (a b : Nat) : Bool := unitsLt (utf16Units a) (utf16Units b)

/-- Insert into a sorted list, for `Array.prototype.sort()`. -/
def insertSorted (x : Nat) : List Nat → List Nat
  | [] => [x]
  | y :: ys => if charLt x y then x :: y :: ys else y :: insertSorted x ys

/-- Model of `Array.from(set).sort()`: sort the distinct characters by JS string
order. -/
def sortChars (l : List Nat) : List Nat := l.foldr insertSorted []

/-- A finalized bucket `{count, ratio, chars}`. -/
structure Bucket where
  count : Nat
  ratio : ℚ
  chars : List Nat
deriving DecidableEq

/-- The result `{total, breakdown}` of `analyzeText`. -/
structure Analysis where
  total : Nat
  breakdown : List (String × Bucket)
deriving DecidableEq

/-- The post-processing loop (lines 552-559): ratio computation (with the
`total > 0` division guard) and character sorting. -/
def finalize (total : Nat) (bd : List (String × AccBucket)) :
    List (String × Bucket) :=
  bd.map (fun kb =>
    (kb.1, { count := kb.2.count,
             ratio := round2 (if 0 < total then (kb.2.count * 100 : ℚ) / total else 0),
             chars := sortChars kb.2.chars }))

/-- Source function `analyzeText(text, options)` with its default parameter
`{ granularity = 'main' } = {}`.  Destructuring the
options parameter happens at function entry: `null` throws a `TypeError`
before the body's checks run; an omitted/`undefined` argument falls back
to `{}` and an absent property to `'main'`. -/
def analyzeText (env : Env) (memo : Memo) (text : JSVal) (opts : JSOptions) :
    Except JSError (Analysis × Memo) :=
  match opts with
  | .null =>
    .error (.typeError "Cannot destructure property granularity of null as it is null.")
  | _ =>
    let granularity : GranVal :=
      match opts with
      | .obj (some g) => g
      | _ => .main
    match text with
    | .nonString => .error (.typeError "Input must be a string.")
    | .str cps =>
      match granularity with
      | .other _ => .error (.rangeError "granularity must be 'main' or 'sub'")
      | g =>
        let r := analyzeLoop env g cps [] 0 memo
        .ok ({ total := r.2.1, breakdown := finalize r.2.1 r.1 }, r.2.2)

/-! ### Helper definitions used by several theorems -/

/-- An environment whose load-time capability probe failed: every nullable
regex is `null` and property-escape support is off (exactly what the
`_SUPPORTS_PROP_ESCAPES ? ... : null` initialisers produce then). -/
def envNull : Env :=
  { supports := false
    reExtPicto := none
    reEmoji := none
    reEmojiComponent := none
    gcLetter := none
    gcMark := none
    gcDecimal := none
    gcNumber := none
    gcPunct := none
    gcSymbol := none
    gcSep := none
    gcCtrl := none
    gcFormat := none
    scripts := [] }

/-- The memo cache is coherent: every cached entry is what a fresh
classification of its code point produces. -/
def coherent (env : Env) (memo : Memo) : Prop :=
  ∀ p ∈ memo, p.2 = _classifyCodePoint env p.1

/-- None of the detectors of the precedence chain matches `cp`. -/
def noDetectorMatches (env : Env) (cp : Nat) : Prop :=
  _classifyWhitespace cp = none ∧ 0x7F < cp ∧ _classifyEmoji env cp = none ∧
    _classifyHangul cp = none ∧
    (if env.supports then _classifyByProperties env cp else none) = none ∧
    _inRanges cp _HAN_FALLBACK_RANGES = false

/-! ### Helper lemmas -/

theorem classify_of_ws (env : Env) (cp : Nat) (l : Label)
    (h : _classifyWhitespace cp = some l) : _classifyCodePoint env cp = l := by
  unfold _classifyCodePoint
  rw [h]

theorem classify_of_ascii (env : Env) (cp : Nat)
    (hcp : cp ≤ 0x7F) (hws : _classifyWhitespace cp = none) :
    _classifyCodePoint env cp = _classifyAscii cp := by
  unfold _classifyCodePoint
  rw [hws]
  exact if_pos hcp

theorem classify_of_emoji (env : Env) (cp : Nat) (l : Label)
    (hws : _classifyWhitespace cp = none) (hcp : ¬ cp ≤ 0x7F)
    (hem : _classifyEmoji env cp = some l) :
    _classifyCodePoint env cp = l := by
  unfold _classifyCodePoint
  rw [hws, if_neg hcp, hem]

theorem classify_of_hangul (env : Env) (cp : Nat) (l : Label)
    (hws : _classifyWhitespace cp = none) (hcp : ¬ cp ≤ 0x7F)
    (hem : _classifyEmoji env cp = none) (hh : _classifyHangul cp = some l) :
    _classifyCodePoint env cp = l := by
  unfold _classifyCodePoint
  rw [hws, if_neg hcp, hem, hh]

theorem lookup_mem {memo : Memo} {cp : Nat} {l : Label}
    (h : List.lookup cp memo = some l) : (cp, l) ∈ memo := by
  induction memo with
  | nil => simp [List.lookup] at h
  | cons p rest ih =>
    obtain ⟨k, v⟩ := p
    rw [List.lookup] at h
    by_cases hc : cp = k
    · subst hc
      simp only [beq_self_eq_true] at h
      cases h
      exact List.mem_cons_self _ _
    · have : (cp == k) = false := beq_false_of_ne hc
      rw [this] at h
      exact List.mem_cons_of_mem _ (ih h)

theorem getCharTypeCp_coherent {env : Env} {memo : Memo}
    (h : coherent env memo) (cp : Nat) :
    (getCharTypeCp env memo cp).1 = _classifyCodePoint env cp ∧
      coherent env (getCharTypeCp env memo cp).2 := by
  unfold getCharTypeCp
  cases hl : List.lookup cp memo with
  | some cached =>
    refine ⟨h _ (lookup_mem hl), ?_⟩
    simpa using h
  | none =>
    refine ⟨rfl, ?_⟩
    intro p hp
    rcases List.mem_cons.1 hp with hp | hp
    · subst hp
      rfl
    · exact h p hp

/-- Total of the running bucket counts. -/
def sumCounts (bd : List (String × AccBucket)) : Nat :=
  (bd.map (fun kb => kb.2.count)).sum

/-- Total of the finalized bucket counts. -/
def sumCountsB (bd : List (String × Bucket)) : Nat :=
  (bd.map (fun kb => kb.2.count)).sum

/-- Sum of the finalized bucket ratios. -/
def sumRatios (bd : List (String × Bucket)) : ℚ :=
  (bd.map (fun kb => kb.2.ratio)).sum

theorem addChar_sumCounts (bd : List (String × AccBucket)) (key : String) (cp : Nat) :
    sumCounts (addChar bd key cp) = sumCounts bd + 1 := by
  induction bd with
  | nil => simp [addChar, sumCounts]
  | cons kb rest ih =>
    obtain ⟨k, b⟩ := kb
    by_cases hk : k = key
    · simp only [addChar, if_pos hk, sumCounts, List.map_cons, List.sum_cons]
      omega
    · simp only [addChar, if_neg hk, sumCounts, List.map_cons, List.sum_cons] at ih ⊢
      omega

theorem analyzeLoop_counts (env : Env) (g : GranVal) :
    ∀ (cps : List Nat) (bd : List (String × AccBucket)) (total : Nat) (memo : Memo),
      (analyzeLoop env g cps bd total memo).2.1 = total + cps.length ∧
      sumCounts (analyzeLoop env g cps bd total memo).1 = sumCounts bd + cps.length := by
  intro cps
  induction cps with
  | nil =>
    intro bd total memo
    simp [analyzeLoop]
  | cons cp rest ih =>
    intro bd total memo
    simp only [analyzeLoop]
    obtain ⟨h1, h2⟩ := ih (addChar bd (labelKey g (getCharTypeCp env memo cp).1) cp)
      (total + 1) (getCharTypeCp env memo cp).2
    refine ⟨?_, ?_⟩
    · rw [h1]
      simp [Nat.add_assoc, Nat.add_comm 1]
    · rw [h2, addChar_sumCounts]
      simp [Nat.add_assoc, Nat.add_comm 1]

theorem finalize_counts (total : Nat) (bd : List (String × AccBucket)) :
    sumCountsB (finalize total bd) = sumCounts bd := by
  induction bd with
  | nil => simp [finalize, sumCountsB, sumCounts]
  | cons kb rest ih =>
    simp only [finalize, sumCountsB, sumCounts, List.map_cons, List.sum_cons] at ih ⊢
    omega

theorem round2_sub_abs (q : ℚ) : |round2 q - q| ≤ 1 / 200 := by
  rw [round2, abs_le]
  have h1 : (⌊q * 100 + 1 / 2⌋ : ℚ) ≤ q * 100 + 1 / 2 := Int.floor_le _
  have h2 : q * 100 + 1 / 2 - 1 < (⌊q * 100 + 1 / 2⌋ : ℚ) := Int.sub_one_lt_floor _
  constructor
  · linarith
  · linarith

theorem sum_map_round2_close {α : Type} (l : List α) (f : α → ℚ) :
    |(l.map (fun x => round2 (f x))).sum - (l.map f).sum| ≤ l.length * (1 / 200) := by
  induction l with
  | nil => simp
  | cons x xs ih =>
    simp only [List.map_cons, List.sum_cons, List.length_cons]
    have h1 := round2_sub_abs (f x)
    have tri :
        |round2 (f x) + (xs.map (fun x => round2 (f x))).sum - (f x + (xs.map f).sum)| ≤
          |round2 (f x) - f x| +
            |(xs.map (fun x => round2 (f x))).sum - (xs.map f).sum| := by
      have : round2 (f x) + (xs.map (fun x => round2 (f x))).sum - (f x + (xs.map f).sum) =
          (round2 (f x) - f x) +
            ((xs.map (fun x => round2 (f x))).sum - (xs.map f).sum) := by ring
      rw [this]
      exact abs_add _ _
    have : (↑(xs.length + 1) : ℚ) * (1 / 200) = 1 / 200 + (xs.length : ℚ) * (1 / 200) := by
      push_cast
      ring
    rw [this]
    exact le_trans tri (add_le_add h1 ih)

theorem sum_map_counts_div (bd : List (String × AccBucket)) (T : ℚ) :
    (bd.map (fun kb => ((kb.2.count : ℚ) * 100 / T))).sum = (sumCounts bd : ℚ) * 100 / T := by
  induction bd with
  | nil => simp [sumCounts]
  | cons kb rest ih =>
    have hs : sumCounts (kb :: rest) = kb.2.count + sumCounts rest := by
      simp [sumCounts]
    simp only [List.map_cons, List.sum_cons, ih, hs]
    push_cast
    ring

theorem sumRatios_finalize (T : Nat) (hT : 0 < T) (bd : List (String × AccBucket)) :
    sumRatios (finalize T bd) =
      (bd.map (fun kb => round2 ((kb.2.count : ℚ) * 100 / (T : ℚ)))).sum := by
  induction bd with
  | nil => simp [finalize, sumRatios]
  | cons kb rest ih =>
    simp only [finalize, sumRatios, List.map_cons, List.sum_cons, if_pos hT] at ih ⊢
    rw [ih]

/-! ### Claim theorems -/

/-- C1: for every valid Unicode scalar value, classification returns
exactly one label (one `main`, an optional `sub`) and never throws (it is
a total function into `Label`); when no detector in the precedence chain
matches, the result is `{main: "Other"}`. -/
theorem classify_total_default (env : Env) (cp : Nat) :
    (∃! l : Label, _classifyCodePoint env cp = l) ∧
      (noDetectorMatches env cp → _classifyCodePoint env cp = ⟨"Other", none⟩) := by
  constructor
  · exact ⟨_classifyCodePoint env cp, rfl, fun l h => h.symm⟩
  · rintro ⟨h1, h2, h3, h4, h5, h6⟩
    unfold _classifyCodePoint
    rw [h1, if_neg (by omega), h3, h4, h5, h6]
    simp

/-- Witness for C1, at an environment with no property support and
U+0080 (past ASCII, matched by nothing). -/
theorem classify_total_default_witness :
    noDetectorMatches envNull 0x80 ∧ _classifyCodePoint envNull 0x80 = ⟨"Other", none⟩ := by
  have hn : noDetectorMatches envNull 0x80 := by
    refine ⟨rfl, by norm_num, rfl, rfl, rfl, rfl⟩
  exact ⟨hn, (classify_total_default envNull 0x80).2 hn⟩

/-- C2: whitespace sub-classification runs before every other detector;
each of the five whitespace sets maps to `main: "Whitespace"` with the sub
of its set, and U+0020 is never classified `Latin` or `Separator`. -/
theorem whitespace_first (env : Env) (cp : Nat) :
    (cp = 0x200B →
      _classifyCodePoint env cp = ⟨"Whitespace", some WS_SUB_ZERO_WIDTH⟩) ∧
    (cp = 0x0009 →
      _classifyCodePoint env cp = ⟨"Whitespace", some WS_SUB_TAB⟩) ∧
    (cp ∈ [0x000A, 0x000B, 0x000C, 0x000D, 0x0085, 0x2028, 0x2029] →
      _classifyCodePoint env cp = ⟨"Whitespace", some WS_SUB_LINE_BREAK⟩) ∧
    (cp ∈ [0x0020, 0x00A0, 0x1680, 0x3000] →
      _classifyCodePoint env cp = ⟨"Whitespace", some WS_SUB_SPACE_SEP⟩) ∧
    (cp ∈ [0x2000, 0x2001, 0x2002, 0x2003, 0x2004, 0x2005, 0x2006, 0x2007,
           0x2008, 0x2009, 0x200A, 0x202F, 0x205F] →
      _classifyCodePoint env cp = ⟨"Whitespace", some WS_SUB_FIXED_WIDTH⟩) ∧
    ((_classifyCodePoint env 0x20).main = "Whitespace" ∧
      (_classifyCodePoint env 0x20).main ≠ "Latin" ∧
      (_classifyCodePoint env 0x20).main ≠ "Separator") := by
  have h20 : _classifyCodePoint env 0x20 = ⟨"Whitespace", some WS_SUB_SPACE_SEP⟩ :=
    classify_of_ws env 0x20 _ rfl
  refine ⟨?_, ?_, ?_, ?_, ?_, ?_⟩
  · rintro rfl
    exact classify_of_ws env _ _ rfl
  · rintro rfl
    exact classify_of_ws env _ _ rfl
  · intro h
    refine classify_of_ws env _ _ ?_
    fin_cases h <;> rfl
  · intro h
    refine classify_of_ws env _ _ ?_
    fin_cases h <;> rfl
  · intro h
    refine classify_of_ws env _ _ ?_
    fin_cases h <;> rfl
  · rw [h20]
    refine ⟨rfl, by decide, by decide⟩

/-- Witness for C2, at U+200B, U+2028 and U+0020. -/
theorem whitespace_first_witness :
    _classifyCodePoint envNull 0x200B = ⟨"Whitespace", some WS_SUB_ZERO_WIDTH⟩ ∧
    _classifyCodePoint envNull 0x2028 = ⟨"Whitespace", some WS_SUB_LINE_BREAK⟩ ∧
    (_classifyCodePoint envNull 0x20).main = "Whitespace" :=
  ⟨(whitespace_first envNull 0x200B).1 rfl,
   (whitespace_first envNull 0x2028).2.2.1 (by decide),
   (whitespace_first envNull 0x20).2.2.2.2.2.1⟩

/-- C3: for every ASCII code point outside the whitespace sets,
classification follows the ASCII fast path exactly; in particular `'$'`
(U+0024) is `Punctuation:ASCII`, not `Symbol`. -/
theorem ascii_fast_path (env : Env) (cp : Nat)
    (hcp : cp ≤ 0x7F) (hws : _classifyWhitespace cp = none) :
    (((cp ≤ 0x1F ∨ cp = 0x7F) → _classifyCodePoint env cp = ⟨"Control", none⟩) ∧
     (0x30 ≤ cp ∧ cp ≤ 0x39 → _classifyCodePoint env cp = ⟨"Digit", some "ASCII"⟩) ∧
     (0x41 ≤ cp ∧ cp ≤ 0x5A → _classifyCodePoint env cp = ⟨"Latin", some "Uppercase"⟩) ∧
     (0x61 ≤ cp ∧ cp ≤ 0x7A → _classifyCodePoint env cp = ⟨"Latin", some "Lowercase"⟩) ∧
     ((0x21 ≤ cp ∧ cp ≤ 0x2F) ∨ (0x3A ≤ cp ∧ cp ≤ 0x40) ∨
      (0x5B ≤ cp ∧ cp ≤ 0x60) ∨ (0x7B ≤ cp ∧ cp ≤ 0x7E) →
        _classifyCodePoint env cp = ⟨"Punctuation", some "ASCII"⟩) ∧
     (¬(cp ≤ 0x1F ∨ cp = 0x7F) → ¬(0x30 ≤ cp ∧ cp ≤ 0x39) →
      ¬(0x41 ≤ cp ∧ cp ≤ 0x5A) → ¬(0x61 ≤ cp ∧ cp ≤ 0x7A) →
      ¬((0x21 ≤ cp ∧ cp ≤ 0x2F) ∨ (0x3A ≤ cp ∧ cp ≤ 0x40) ∨
        (0x5B ≤ cp ∧ cp ≤ 0x60) ∨ (0x7B ≤ cp ∧ cp ≤ 0x7E)) →
        _classifyCodePoint env cp = ⟨"Other", some "ASCII"⟩)) ∧
    _classifyCodePoint env 0x24 = ⟨"Punctuation", some "ASCII"⟩ := by
  have e := classify_of_ascii env cp hcp hws
  have e24 := classify_of_ascii env 0x24 (by norm_num) rfl
  rw [e, e24]
  refine ⟨⟨?_, ?_, ?_, ?_, ?_, ?_⟩, by decide⟩
  · exact (by decide : ∀ x, x < 128 →
      ((x ≤ 0x1F ∨ x = 0x7F) → _classifyAscii x = ⟨"Control", none⟩)) cp (by omega)
  · exact (by decide : ∀ x, x < 128 →
      (0x30 ≤ x ∧ x ≤ 0x39 → _classifyAscii x = ⟨"Digit", some "ASCII"⟩)) cp (by omega)
  · exact (by decide : ∀ x, x < 128 →
      (0x41 ≤ x ∧ x ≤ 0x5A → _classifyAscii x = ⟨"Latin", some "Uppercase"⟩)) cp (by omega)
  · exact (by decide : ∀ x, x < 128 →
      (0x61 ≤ x ∧ x ≤ 0x7A → _classifyAscii x = ⟨"Latin", some "Lowercase"⟩)) cp (by omega)
  · exact (by decide : ∀ x, x < 128 →
      ((0x21 ≤ x ∧ x ≤ 0x2F) ∨ (0x3A ≤ x ∧ x ≤ 0x40) ∨
       (0x5B ≤ x ∧ x ≤ 0x60) ∨ (0x7B ≤ x ∧ x ≤ 0x7E) →
        _classifyAscii x = ⟨"Punctuation", some "ASCII"⟩)) cp (by omega)
  · intro n1 n2 n3 n4 n5
    have h20 : cp = 0x20 := by omega
    subst h20
    decide

/-- Witness for C3, at `'A'` (U+0041) and the final `'$'` conjunct. -/
theorem ascii_fast_path_witness :
    _classifyCodePoint envNull 0x41 = ⟨"Latin", some "Uppercase"⟩ ∧
    _classifyCodePoint envNull 0x24 = ⟨"Punctuation", some "ASCII"⟩ :=
  ⟨(ascii_fast_path envNull 0x41 (by decide) rfl).1.2.2.1 (by decide),
   (ascii_fast_path envNull 0x41 (by decide) rfl).2⟩

/-- C9, counterexample: in an environment with no Unicode property
support (all property regexes `null`), the emoji detector still labels
U+FE00 `Emoji:Variation Selector` — it does not fall through for every
code point, because the variation-selector branch is range-based. -/
theorem emoji_step_noprops_counterexample :
    envNull.supports = false ∧
    envNull.reExtPicto = none ∧ envNull.reEmoji = none ∧
    envNull.reEmojiComponent = none ∧
    _classifyEmoji envNull 0xFE00 = some ⟨"Emoji", some "Variation Selector"⟩ ∧
    _classifyCodePoint envNull 0xFE00 = ⟨"Emoji", some "Variation Selector"⟩ :=
  ⟨rfl, rfl, rfl, rfl, by decide, by decide⟩

/-- C9, amended: when the runtime does not support Unicode property
matching (all three emoji regexes are `null`), the emoji detector still
labels the variation selectors U+FE00–U+FE0F and U+E0100–U+E01EF as
`Emoji:Variation Selector`, and contributes nothing (falls through) for
every other code point, leaving the rest of emoji coverage to the
range-based fallback of step 6. -/
theorem emoji_step_noprops (env : Env) (hs : env.supports = false)
    (h1 : env.reExtPicto = none) (h2 : env.reEmoji = none)
    (h3 : env.reEmojiComponent = none) :
    (∀ cp, (0xFE00 ≤ cp ∧ cp ≤ 0xFE0F) ∨ (0xE0100 ≤ cp ∧ cp ≤ 0xE01EF) →
      _classifyEmoji env cp = some ⟨"Emoji", some "Variation Selector"⟩) ∧
    (∀ cp, ¬((0xFE00 ≤ cp ∧ cp ≤ 0xFE0F) ∨ (0xE0100 ≤ cp ∧ cp ≤ 0xE01EF)) →
      _classifyEmoji env cp = none) := by
  constructor
  · intro cp h
    unfold _classifyEmoji
    have hb : ((_VS_BASIC_RANGE.1 ≤ cp && cp ≤ _VS_BASIC_RANGE.2) ||
        (_VS_SUPP_RANGE.1 ≤ cp && cp ≤ _VS_SUPP_RANGE.2)) = true := by
      simp only [_VS_BASIC_RANGE, _VS_SUPP_RANGE, Bool.or_eq_true, Bool.and_eq_true,
        decide_eq_true_eq]
      omega
    rw [if_pos hb]
  · intro cp h
    unfold _classifyEmoji
    have hb : ((_VS_BASIC_RANGE.1 ≤ cp && cp ≤ _VS_BASIC_RANGE.2) ||
        (_VS_SUPP_RANGE.1 ≤ cp && cp ≤ _VS_SUPP_RANGE.2)) = false := by
      simp only [_VS_BASIC_RANGE, _VS_SUPP_RANGE, Bool.or_eq_false_iff,
        Bool.and_eq_false_iff, decide_eq_false_iff_not]
      omega
    rw [hb]
    simp [testOpt, h1, h2]

/-- Witness for the amended C9, at U+E0100 (labeled) and U+1F60A (falls
through). -/
theorem emoji_step_noprops_witness :
    _classifyEmoji envNull 0xE0100 = some ⟨"Emoji", some "Variation Selector"⟩ ∧
    _classifyEmoji envNull 0x1F60A = none :=
  ⟨(emoji_step_noprops envNull rfl rfl rfl rfl).1 0xE0100 (by omega),
   (emoji_step_noprops envNull rfl rfl rfl rfl).2 0x1F60A (by omega)⟩

/-- C6: `getCharacterType` fails with a `TypeError` exactly when its
argument is not a string or is the empty string; `analyzeText` fails with
a `TypeError` whenever `text` is not a string (for every options value),
and with a `RangeError` when `text` is a string and `granularity` is
provided but is neither `"main"` nor `"sub"`.  Errors are returned as
`Except.error` with no analysis attached: no partial work, no partial
result. -/
theorem validation_errors (env : Env) (memo : Memo) :
    (∀ v : JSVal,
      (∃ msg, getCharacterType env memo v = .error (.typeError msg)) ↔
        (v = .nonString ∨ v = .str [])) ∧
    (∀ opts : JSOptions,
      ∃ msg, analyzeText env memo .nonString opts = .error (.typeError msg)) ∧
    (∀ (cps : List Nat) (s : String),
      analyzeText env memo (.str cps) (.obj (some (.other s))) =
        .error (.rangeError "granularity must be 'main' or 'sub'")) := by
  refine ⟨?_, ?_, ?_⟩
  · intro v
    constructor
    · rintro ⟨msg, hmsg⟩
      match v with
      | .nonString => exact Or.inl rfl
      | .str [] => exact Or.inr rfl
      | .str (cp :: rest) => simp [getCharacterType] at hmsg
    · rintro (rfl | rfl) <;> exact ⟨_, rfl⟩
  · intro opts
    match opts with
    | .null => exact ⟨_, rfl⟩
    | .undef => exact ⟨_, rfl⟩
    | .obj g => exact ⟨_, rfl⟩
  · intro cps s
    rfl

/-- Witness for C6: the empty string, a non-string text, and the bad
granularity `"word"`, each at concrete arguments. -/
theorem validation_errors_witness :
    (∃ msg, getCharacterType envNull [] (.str []) = .error (.typeError msg)) ∧
    (∃ msg, analyzeText envNull [] .nonString .undef = .error (.typeError msg)) ∧
    analyzeText envNull [] (.str [0x78]) (.obj (some (.other "word"))) =
      .error (.rangeError "granularity must be 'main' or 'sub'") :=
  ⟨((validation_errors envNull []).1 (.str [])).2 (Or.inr rfl),
   (validation_errors envNull []).2.1 .undef,
   (validation_errors envNull []).2.2 [0x78] "word"⟩

/-- C7: with a coherent cache, `getCharacterType` on any string starting
with code point `cp` returns exactly the fresh classification of `cp`, the
cache stays coherent, and a repeated call (any continuation of the string)
returns the same label with the cache unchanged — the memo cache never
changes behaviour. -/
theorem classification_deterministic (env : Env) (memo : Memo)
    (h : coherent env memo) (cp : Nat) (rest : List Nat) :
    ∃ memo' : Memo,
      getCharacterType env memo (.str (cp :: rest)) =
        .ok (_classifyCodePoint env cp, memo') ∧
      coherent env memo' ∧
      ∀ rest' : List Nat,
        getCharacterType env memo' (.str (cp :: rest')) =
          .ok (_classifyCodePoint env cp, memo') := by
  refine ⟨(getCharTypeCp env memo cp).2, ?_, (getCharTypeCp_coherent h cp).2, ?_⟩
  · show Except.ok (getCharTypeCp env memo cp) = _
    rw [show getCharTypeCp env memo cp =
      (_classifyCodePoint env cp, (getCharTypeCp env memo cp).2) from
      Prod.ext (getCharTypeCp_coherent h cp).1 rfl]
  · intro rest'
    show Except.ok (getCharTypeCp env (getCharTypeCp env memo cp).2 cp) = _
    unfold getCharTypeCp
    cases hl : List.lookup cp memo with
    | some cached =>
      simp only [hl]
      have : cached = _classifyCodePoint env cp := h _ (lookup_mem hl)
      rw [this]
    | none =>
      simp only [hl]
      simp [List.lookup]

/-- Witness for C7, at the empty cache and `'A'` (U+0041). -/
theorem classification_deterministic_witness :
    ∃ memo' : Memo,
      getCharacterType envNull [] (.str [0x41]) =
        .ok (_classifyCodePoint envNull 0x41, memo') ∧
      coherent envNull memo' ∧
      ∀ rest' : List Nat,
        getCharacterType envNull memo' (.str (0x41 :: rest')) =
          .ok (_classifyCodePoint envNull 0x41, memo') :=
  classification_deterministic envNull [] (fun p hp => by simp at hp) 0x41 []

/-- C10: for every string `text`, `analyzeText(text, null)` throws a
`TypeError` — the `null` options argument is rejected by the parameter
destructuring before the documented validations run (so the message is
the destructuring one, not `"Input must be a string."`, even when `text`
is not a string) — while an omitted/`undefined` options argument defaults
`granularity` to `"main"` and succeeds. -/
theorem null_options_typeerror (env : Env) (memo : Memo) (cps : List Nat) :
    analyzeText env memo (.str cps) .null =
      .error (.typeError
        "Cannot destructure property granularity of null as it is null.") ∧
    analyzeText env memo .nonString .null =
      .error (.typeError
        "Cannot destructure property granularity of null as it is null.") ∧
    (∃ r, analyzeText env memo (.str cps) .undef = .ok r) :=
  ⟨rfl, rfl, ⟨_, rfl⟩⟩

/-- Inversion: a successful `analyzeText` run on a string is the loop plus
finalization under some valid granularity. -/
theorem analyzeText_ok {env : Env} {memo : Memo} {cps : List Nat}
    {opts : JSOptions} {a : Analysis} {m' : Memo}
    (hrun : analyzeText env memo (.str cps) opts = .ok (a, m')) :
    ∃ g : GranVal, (g = .main ∨ g = .sub) ∧
      a = { total := (analyzeLoop env g cps [] 0 memo).2.1,
            breakdown := finalize (analyzeLoop env g cps [] 0 memo).2.1
              (analyzeLoop env g cps [] 0 memo).1 } ∧
      m' = (analyzeLoop env g cps [] 0 memo).2.2 := by
  cases opts with
  | null => simp [analyzeText] at hrun
  | undef =>
    simp only [analyzeText, Except.ok.injEq, Prod.mk.injEq] at hrun
    exact ⟨.main, Or.inl rfl, hrun.1.symm, hrun.2.symm⟩
  | obj og =>
    cases og with
    | none =>
      simp only [analyzeText, Except.ok.injEq, Prod.mk.injEq] at hrun
      exact ⟨.main, Or.inl rfl, hrun.1.symm, hrun.2.symm⟩
    | some g =>
      cases g with
      | main =>
        simp only [analyzeText, Except.ok.injEq, Prod.mk.injEq] at hrun
        exact ⟨.main, Or.inl rfl, hrun.1.symm, hrun.2.symm⟩
      | sub =>
        simp only [analyzeText, Except.ok.injEq, Prod.mk.injEq] at hrun
        exact ⟨.sub, Or.inr rfl, hrun.1.symm, hrun.2.symm⟩
      | other s => simp [analyzeText] at hrun

/-- C5: for every non-empty string input on which `analyzeText` succeeds,
the bucket counts sum to `total`, every bucket's ratio is
`count * 100 / total` rounded to 2 decimal places, and the ratios sum to
100 within ±0.01 per bucket. -/
theorem ratio_invariant (env : Env) (memo : Memo) (cps : List Nat)
    (hne : cps ≠ []) (opts : JSOptions) (a : Analysis) (m' : Memo)
    (hrun : analyzeText env memo (.str cps) opts = .ok (a, m')) :
    sumCountsB a.breakdown = a.total ∧
    (∀ kb ∈ a.breakdown,
      kb.2.ratio = round2 ((kb.2.count : ℚ) * 100 / (a.total : ℚ))) ∧
    |sumRatios a.breakdown - 100| ≤ (a.breakdown.length : ℚ) * (1 / 100) := by
  obtain ⟨g, -, ha, -⟩ := analyzeText_ok hrun
  obtain ⟨htot, hsum⟩ := analyzeLoop_counts env g cps [] 0 memo
  subst ha
  simp only
  have hlen : 0 < cps.length := List.length_pos.mpr hne
  have hT : 0 < (analyzeLoop env g cps [] 0 memo).2.1 := by
    rw [htot]
    omega
  have hsum0 : sumCounts (analyzeLoop env g cps [] 0 memo).1 =
      (analyzeLoop env g cps [] 0 memo).2.1 := by
    rw [hsum, htot]
    simp [sumCounts]
  refine ⟨?_, ?_, ?_⟩
  · rw [finalize_counts, hsum0]
  · intro kb hkb
    obtain ⟨x, hx, hfx⟩ := List.mem_map.1 hkb
    subst hfx
    simp only [if_pos hT]
  · rw [sumRatios_finalize _ hT]
    have hclose := sum_map_round2_close (analyzeLoop env g cps [] 0 memo).1
      (fun kb => ((kb.2.count : ℚ) * 100 / ((analyzeLoop env g cps [] 0 memo).2.1 : ℚ)))
    have hTQ : ((analyzeLoop env g cps [] 0 memo).2.1 : ℚ) ≠ 0 := by
      exact_mod_cast Nat.pos_iff_ne_zero.mp hT
    have hexact : ((analyzeLoop env g cps [] 0 memo).1.map
        (fun kb => ((kb.2.count : ℚ) * 100 /
          ((analyzeLoop env g cps [] 0 memo).2.1 : ℚ)))).sum = 100 := by
      rw [sum_map_counts_div, hsum0]
      field_simp
    rw [hexact] at hclose
    have hlenf : ((finalize (analyzeLoop env g cps [] 0 memo).2.1
        (analyzeLoop env g cps [] 0 memo).1).length : ℚ) =
        ((analyzeLoop env g cps [] 0 memo).1.length : ℚ) := by
      simp [finalize]
    rw [hlenf]
    refine le_trans hclose ?_
    have : (0 : ℚ) ≤ ((analyzeLoop env g cps [] 0 memo).1.length : ℚ) := by positivity
    nlinarith

/-- Witness for C5, on the input `"aa"` with default options. -/
theorem ratio_invariant_witness :
    sumCountsB ((⟨2, [("Latin", ⟨2, 100, [0x61]⟩)]⟩ : Analysis)).breakdown =
        (⟨2, [("Latin", ⟨2, 100, [0x61]⟩)]⟩ : Analysis).total ∧
    (∀ kb ∈ (⟨2, [("Latin", ⟨2, 100, [0x61]⟩)]⟩ : Analysis).breakdown,
      kb.2.ratio = round2 ((kb.2.count : ℚ) * 100 /
        ((⟨2, [("Latin", ⟨2, 100, [0x61]⟩)]⟩ : Analysis).total : ℚ))) ∧
    |sumRatios (⟨2, [("Latin", ⟨2, 100, [0x61]⟩)]⟩ : Analysis).breakdown - 100| ≤
      (((⟨2, [("Latin", ⟨2, 100, [0x61]⟩)]⟩ : Analysis).breakdown.length : ℚ)) * (1 / 100) := by
  refine ratio_invariant envNull [] [0x61, 0x61] (by simp) .undef _ [(0x61, ⟨"Latin", some "Lowercase"⟩)] ?_
  have h100 : round2 (100 : ℚ) = 100 := by
    norm_num [round2]
  simp only [analyzeText, analyzeLoop, getCharTypeCp, List.lookup, finalize, addChar,
    labelKey, sortChars, List.foldr]
  norm_num [_classifyCodePoint, _classifyWhitespace, _classifyAscii, _inSingles, _inRanges,
    _WS_ZERO_WIDTH_SINGLES, _WS_TAB, _WS_LINE_BREAK_RANGES, _WS_LINE_BREAK_SINGLES,
    _WS_SPACE_SEPARATOR_SINGLES, _WS_FIXED_WIDTH_RANGES, _WS_FIXED_WIDTH_SINGLES, h100,
    insertSorted]

theorem addChar_mem_self (bd : List (String × AccBucket)) (key : String) (cp : Nat) :
    ∃ b, (key, b) ∈ addChar bd key cp ∧ cp ∈ b.chars := by
  induction bd with
  | nil => exact ⟨⟨1, [cp]⟩, by simp [addChar]⟩
  | cons kb rest ih =>
    obtain ⟨k, b⟩ := kb
    by_cases hk : k = key
    · subst hk
      refine ⟨⟨b.count + 1, if cp ∈ b.chars then b.chars else b.chars ++ [cp]⟩, ?_, ?_⟩
      · simp [addChar]
      · by_cases hc : cp ∈ b.chars
        · simp [hc]
        · simp [hc]
    · obtain ⟨b', hb', hc'⟩ := ih
      exact ⟨b', by simp [addChar, hk, hb'], hc'⟩

theorem addChar_mem_preserve (bd : List (String × AccBucket)) (key : String) (cp : Nat)
    {k : String} {x : Nat} (h : ∃ b, (k, b) ∈ bd ∧ x ∈ b.chars) :
    ∃ b', (k, b') ∈ addChar bd key cp ∧ x ∈ b'.chars := by
  induction bd with
  | nil =>
    obtain ⟨b, hb, -⟩ := h
    simp at hb
  | cons kb rest ih =>
    obtain ⟨k0, b0⟩ := kb
    obtain ⟨b, hb, hx⟩ := h
    rcases List.mem_cons.1 hb with hb | hb
    · obtain ⟨hk0, hb0⟩ := Prod.mk.injEq .. ▸ hb
      subst hk0
      subst hb0
      by_cases hk : k = key
      · subst hk
        refine ⟨⟨b.count + 1, if cp ∈ b.chars then b.chars else b.chars ++ [cp]⟩, ?_, ?_⟩
        · simp [addChar]
        · by_cases hc : cp ∈ b.chars
          · simp [hc, hx]
          · simp [hc, hx]
      · exact ⟨b, by simp [addChar, hk], hx⟩
    · by_cases hk : k0 = key
      · subst hk
        exact ⟨b, by simp [addChar, List.mem_cons_of_mem _ hb], hx⟩
      · obtain ⟨b', hb', hx'⟩ := ih ⟨b, hb, hx⟩
        exact ⟨b', by simp [addChar, hk, hb'], hx'⟩

theorem addChar_keys (bd : List (String × AccBucket)) (key : String) (cp : Nat)
    {s : String} (h : s ∈ (addChar bd key cp).map Prod.fst) :
    s = key ∨ s ∈ bd.map Prod.fst := by
  induction bd with
  | nil =>
    simp [addChar] at h
    exact Or.inl h
  | cons kb rest ih =>
    obtain ⟨k0, b0⟩ := kb
    by_cases hk : k0 = key
    · simp only [addChar, if_pos hk, List.map_cons, List.mem_cons] at h
      rcases h with h | h
      · subst hk
        exact Or.inr (by simp [h])
      · exact Or.inr (by simp [h])
    · simp only [addChar, if_neg hk, List.map_cons, List.mem_cons] at h
      rcases h with h | h
      · exact Or.inr (by simp [h])
      · rcases ih h with h | h
        · exact Or.inl h
        · exact Or.inr (by simp [h])

theorem mem_insertSorted (x a : Nat) (l : List Nat) :
    a ∈ insertSorted x l ↔ a = x ∨ a ∈ l := by
  induction l with
  | nil => simp [insertSorted]
  | cons y ys ih =>
    by_cases hc : charLt x y
    · simp [insertSorted, hc]
    · rw [show insertSorted x (y :: ys) = y :: insertSorted x ys from by
        simp [insertSorted, hc]]
      simp only [List.mem_cons, ih]
      tauto

theorem mem_sortChars (a : Nat) (l : List Nat) : a ∈ sortChars l ↔ a ∈ l := by
  induction l with
  | nil => simp [sortChars]
  | cons y ys ih =>
    show a ∈ insertSorted y (sortChars ys) ↔ _
    rw [mem_insertSorted]
    simp only [List.mem_cons, ih]

/-- The loop invariant for C8: with a coherent cache, every processed code
point ends up (as a distinct character) in the bucket keyed by
`labelKey g` of its fresh classification, existing bucket characters are
preserved, and every bucket key in the result was already present or is
the label key of some processed code point. -/
theorem analyzeLoop_keys (env : Env) (g : GranVal) :
    ∀ (cps : List Nat) (bd : List (String × AccBucket)) (total : Nat) (memo : Memo),
      coherent env memo →
      ((∀ cp ∈ cps,
        ∃ b, (labelKey g (_classifyCodePoint env cp), b) ∈
            (analyzeLoop env g cps bd total memo).1 ∧ cp ∈ b.chars) ∧
       (∀ (k : String) (x : Nat), (∃ b, (k, b) ∈ bd ∧ x ∈ b.chars) →
        ∃ b, (k, b) ∈ (analyzeLoop env g cps bd total memo).1 ∧ x ∈ b.chars) ∧
       (∀ s ∈ ((analyzeLoop env g cps bd total memo).1).map Prod.fst,
        s ∈ bd.map Prod.fst ∨
          ∃ cp ∈ cps, s = labelKey g (_classifyCodePoint env cp))) := by
  intro cps
  induction cps with
  | nil =>
    intro bd total memo hmemo
    refine ⟨by simp, ?_, ?_⟩
    · intro k x hx
      simpa [analyzeLoop] using hx
    · intro s hs
      exact Or.inl (by simpa [analyzeLoop] using hs)
  | cons cp rest ih =>
    intro bd total memo hmemo
    obtain ⟨hlab, hcoh⟩ := getCharTypeCp_coherent hmemo cp
    simp only [analyzeLoop, hlab]
    obtain ⟨ih1, ih2, ih3⟩ := ih (addChar bd (labelKey g (_classifyCodePoint env cp)) cp)
      (total + 1) (getCharTypeCp env memo cp).2 hcoh
    refine ⟨?_, ?_, ?_⟩
    · intro c hc
      rcases List.mem_cons.1 hc with hc | hc
      · subst hc
        exact ih2 _ _ (addChar_mem_self bd _ c)
      · exact ih1 c hc
    · intro k x hx
      exact ih2 k x (addChar_mem_preserve bd _ cp hx)
    · intro s hs
      rcases ih3 s hs with hs' | hs'
      · rcases addChar_keys bd _ cp hs' with h | h
        · exact Or.inr ⟨cp, List.mem_cons_self _ _, h⟩
        · exact Or.inl h
      · obtain ⟨c, hc, hkey⟩ := hs'
        exact Or.inr ⟨c, List.mem_cons_of_mem _ hc, hkey⟩

theorem finalize_mem {bd : List (String × AccBucket)} {k : String} {b : AccBucket}
    (T : Nat) (h : (k, b) ∈ bd) :
    ∃ b' : Bucket, (k, b') ∈ finalize T bd ∧ b'.chars = sortChars b.chars :=
  ⟨_, List.mem_map_of_mem _ h, rfl⟩

/-- C8: under granularity `"sub"`, every character whose classification has
a sub is bucketed under `"main:sub"`, every character whose classification
has no sub is bucketed under the bare `main`, and every bucket key of the
result is of one of those two shapes (never `"main:undefined"`). -/
theorem granularity_sub_bucketing (env : Env) (memo : Memo)
    (hmemo : coherent env memo) (cps : List Nat) (a : Analysis) (m' : Memo)
    (hrun : analyzeText env memo (.str cps) (.obj (some .sub)) = .ok (a, m')) :
    (∀ cp ∈ cps,
      ∃ b : Bucket,
        ((match (_classifyCodePoint env cp).sub with
          | some s => (_classifyCodePoint env cp).main ++ ":" ++ s
          | none => (_classifyCodePoint env cp).main), b) ∈ a.breakdown ∧
          cp ∈ b.chars) ∧
    (∀ kb ∈ a.breakdown, ∃ cp ∈ cps,
      kb.1 = match (_classifyCodePoint env cp).sub with
             | some s => (_classifyCodePoint env cp).main ++ ":" ++ s
             | none => (_classifyCodePoint env cp).main) := by
  have hkey : ∀ l : Label, labelKey .sub l =
      match l.sub with
      | some s => l.main ++ ":" ++ s
      | none => l.main := by
    intro l
    obtain ⟨m, s⟩ := l
    cases s <;> rfl
  simp only [analyzeText, Except.ok.injEq, Prod.mk.injEq] at hrun
  obtain ⟨ha, -⟩ := hrun
  subst ha
  obtain ⟨h1, h2, h3⟩ := analyzeLoop_keys env .sub cps [] 0 memo hmemo
  constructor
  · intro cp hc
    obtain ⟨b, hb, hcb⟩ := h1 cp hc
    obtain ⟨b', hb', hchars⟩ := finalize_mem _ hb
    rw [← hkey (_classifyCodePoint env cp)]
    refine ⟨b', hb', ?_⟩
    rw [hchars, mem_sortChars]
    exact hcb
  · intro kb hkb
    simp only [finalize] at hkb
    obtain ⟨x, hx, hfx⟩ := List.mem_map.1 hkb
    have hk1 : kb.1 = x.1 := by
      rw [← hfx]
    rcases h3 x.1 (List.mem_map_of_mem _ hx) with h | h
    · simp at h
    · obtain ⟨cp, hcp, hkeq⟩ := h
      exact ⟨cp, hcp, by rw [hk1, hkeq, hkey]⟩

/-- The breakdown the analysis loop builds, with every cache interaction
replaced by a fresh classification; used to compute `analyzeLoop` results
under a coherent cache. -/
def pureBreakdown (env : Env) (g : GranVal) :
    List Nat → List (String × AccBucket) → List (String × AccBucket)
  | [], bd => bd
  | cp :: rest, bd =>
    pureBreakdown env g rest (addChar bd (labelKey g (_classifyCodePoint env cp)) cp)

theorem analyzeLoop_pure (env : Env) (g : GranVal) :
    ∀ (cps : List Nat) (bd : List (String × AccBucket)) (total : Nat) (memo : Memo),
      coherent env memo →
      (analyzeLoop env g cps bd total memo).1 = pureBreakdown env g cps bd := by
  intro cps
  induction cps with
  | nil =>
    intro bd total memo hmemo
    simp [analyzeLoop, pureBreakdown]
  | cons cp rest ih =>
    intro bd total memo hmemo
    obtain ⟨hlab, hcoh⟩ := getCharTypeCp_coherent hmemo cp
    simp only [analyzeLoop, pureBreakdown, hlab]
    exact ih _ (total + 1) _ hcoh

/-- C4: assuming the runtime property matcher behaves as Unicode specifies
on the two non-ASCII characters (`😊` is Extended_Pictographic, `가` is
neither Extended_Pictographic nor Emoji), `analyzeText("Hello 가😊")` with
default options yields `total = 8` and exactly the Latin / Whitespace /
Hangul / Emoji breakdown, with `'l'` counted twice but listed once. -/
theorem analyze_hello (env : Env) (memo : Memo) (hmemo : coherent env memo)
    (h1 : testOpt env.reExtPicto 0x1F60A = true)
    (h2 : testOpt env.reExtPicto 0xAC00 = false)
    (h3 : testOpt env.reEmoji 0xAC00 = false) :
    (analyzeText env memo
        (.str [0x48, 0x65, 0x6C, 0x6C, 0x6F, 0x20, 0xAC00, 0x1F60A]) .undef).toOption.map
        Prod.fst =
      some { total := 8
             breakdown := [
               ("Latin", ⟨5, 125 / 2, [0x48, 0x65, 0x6C, 0x6F]⟩),
               ("Whitespace", ⟨1, 25 / 2, [0x20]⟩),
               ("Hangul", ⟨1, 25 / 2, [0xAC00]⟩),
               ("Emoji", ⟨1, 25 / 2, [0x1F60A]⟩)] } := by
  have hemN : _classifyEmoji env 0xAC00 = none := by
    simp [_classifyEmoji, _VS_BASIC_RANGE, _VS_SUPP_RANGE, h2, h3]
  have hemS : _classifyEmoji env 0x1F60A =
      some ⟨"Emoji", some "Extended Pictographic"⟩ := by
    simp [_classifyEmoji, _VS_BASIC_RANGE, _VS_SUPP_RANGE, h1]
  have eH : _classifyCodePoint env 0x48 = ⟨"Latin", some "Uppercase"⟩ := rfl
  have ee : _classifyCodePoint env 0x65 = ⟨"Latin", some "Lowercase"⟩ := rfl
  have el : _classifyCodePoint env 0x6C = ⟨"Latin", some "Lowercase"⟩ := rfl
  have eo : _classifyCodePoint env 0x6F = ⟨"Latin", some "Lowercase"⟩ := rfl
  have esp : _classifyCodePoint env 0x20 = ⟨"Whitespace", some WS_SUB_SPACE_SEP⟩ := rfl
  have eAC : _classifyCodePoint env 0xAC00 = ⟨"Hangul", some "Syllable"⟩ :=
    classify_of_hangul env 0xAC00 _ rfl (by norm_num) hemN rfl
  have eEm : _classifyCodePoint env 0x1F60A = ⟨"Emoji", some "Extended Pictographic"⟩ :=
    classify_of_emoji env 0x1F60A _ rfl (by norm_num) hemS
  have hbd := analyzeLoop_pure env .main
    [0x48, 0x65, 0x6C, 0x6C, 0x6F, 0x20, 0xAC00, 0x1F60A] [] 0 memo hmemo
  have htot := (analyzeLoop_counts env .main
    [0x48, 0x65, 0x6C, 0x6C, 0x6F, 0x20, 0xAC00, 0x1F60A] [] 0 memo).1
  have hpb : pureBreakdown env .main
      [0x48, 0x65, 0x6C, 0x6C, 0x6F, 0x20, 0xAC00, 0x1F60A] [] =
      [("Latin", ⟨5, [0x48, 0x65, 0x6C, 0x6F]⟩),
       ("Whitespace", ⟨1, [0x20]⟩),
       ("Hangul", ⟨1, [0xAC00]⟩),
       ("Emoji", ⟨1, [0x1F60A]⟩)] := by
    simp only [pureBreakdown, eH, ee, el, eo, esp, eAC, eEm]
    norm_num [addChar, labelKey]
    decide
  have r1 : round2 ((125 : ℚ) / 2) = 125 / 2 := by norm_num [round2]
  have r2 : round2 ((25 : ℚ) / 2) = 25 / 2 := by norm_num [round2]
  simp only [analyzeText, Except.toOption, Option.map, hbd, htot, hpb]
  norm_num [finalize, r1, r2, sortChars, insertSorted, charLt, unitsLt, utf16Units]

/-- Witness for C4: a concrete environment whose Extended_Pictographic
matcher recognizes exactly U+1F60A, with an empty cache. -/
theorem analyze_hello_witness :
    (analyzeText
        { envNull with reExtPicto := some (fun cp => cp == 0x1F60A) } []
        (.str [0x48, 0x65, 0x6C, 0x6C, 0x6F, 0x20, 0xAC00, 0x1F60A]) .undef).toOption.map
        Prod.fst =
      some { total := 8
             breakdown := [
               ("Latin", ⟨5, 125 / 2, [0x48, 0x65, 0x6C, 0x6F]⟩),
               ("Whitespace", ⟨1, 25 / 2, [0x20]⟩),
               ("Hangul", ⟨1, 25 / 2, [0xAC00]⟩),
               ("Emoji", ⟨1, 25 / 2, [0x1F60A]⟩)] } :=
  analyze_hello { envNull with reExtPicto := some (fun cp => cp == 0x1F60A) } []
    (fun p hp => absurd hp (List.not_mem_nil p)) rfl rfl rfl

/-- Witness for C8: the single-character input `"A"` under granularity
`"sub"`, with an empty cache. -/
theorem granularity_sub_bucketing_witness :
    (∀ cp ∈ [0x41],
      ∃ b : Bucket,
        ((match (_classifyCodePoint envNull cp).sub with
          | some s => (_classifyCodePoint envNull cp).main ++ ":" ++ s
          | none => (_classifyCodePoint envNull cp).main), b) ∈
          (⟨1, [("Latin:Uppercase", ⟨1, 100, [0x41]⟩)]⟩ : Analysis).breakdown ∧
          cp ∈ b.chars) ∧
    (∀ kb ∈ (⟨1, [("Latin:Uppercase", ⟨1, 100, [0x41]⟩)]⟩ : Analysis).breakdown,
      ∃ cp ∈ [0x41],
        kb.1 = match (_classifyCodePoint envNull cp).sub with
               | some s => (_classifyCodePoint envNull cp).main ++ ":" ++ s
               | none => (_classifyCodePoint envNull cp).main) := by
  refine granularity_sub_bucketing envNull []
    (fun p hp => absurd hp (List.not_mem_nil p)) [0x41] _
    [(0x41, ⟨"Latin", some "Uppercase"⟩)] ?_
  have h100 : round2 (100 : ℚ) = 100 := by
    norm_num [round2]
  simp only [analyzeText, analyzeLoop, getCharTypeCp, List.lookup, finalize, addChar,
    labelKey, sortChars, List.foldr]
  norm_num [_classifyCodePoint, _classifyWhitespace, _classifyAscii, _inSingles, _inRanges,
    _WS_ZERO_WIDTH_SINGLES, _WS_TAB, _WS_LINE_BREAK_RANGES, _WS_LINE_BREAK_SINGLES,
    _WS_SPACE_SEPARATOR_SINGLES, _WS_FIXED_WIDTH_RANGES, _WS_FIXED_WIDTH_SINGLES, h100,
    insertSorted]
  decide

end GlyphScope
